import Mathlib

/-
  Verification development for the GoogleDriveTransfer repository
  (src/drive_transfer.py).

  Strings from the Python source (ids, names, paths, mime types, error
  texts) are modelled as `List Char`.  Machine integers are `Nat`; the
  float delays are modelled as `ℚ`.  Remote-API effects are modelled by
  explicit state passing (destination folder state, fresh-id counter)
  plus fault oracles that decide, per call site, whether the underlying
  HTTP call raises an `HttpError`.  All definitions are translated from
  the source; the few definitions that follow the spec's wording instead
  are marked as such in their doc comments.
-/

set_option maxRecDepth 4096

/-! ### Path strings

Python's `str.split('/')`, `'/'.join(...)` and `str.count('/')`, modelled
on `List Char`. -/

/-- Python `s.split('/')` on a string modelled as a `List Char`.
`splitSlash [] = [[]]`, matching `''.split('/') == ['']`.  The result is
always nonempty, so the `headD`/`tail` defaults are never exercised. -/
def splitSlash : List Char → List (List Char)
  | [] => [[]]
  | c :: cs =>
    let r := splitSlash cs
    if c = '/' then [] :: r else (c :: r.headD []) :: r.tail

/-- Python `'/'.join(parts)`. -/
def joinSlash : List (List Char) → List Char
  | [] => []
  | [p] => p
  | p :: q :: ps => p ++ '/' :: joinSlash (q :: ps)

/-- Python `path.count('/')`: the depth key used by
`create_folder_structure` (line 387). -/
def pathDepth (p : List Char) : Nat := p.count '/'

/-- Python `'/'.join(path.split('/')[:-1])`, the parent-path computation
used at drive_transfer.py lines 395 and 477. -/
def parentPath (p : List Char) : List Char :=
  joinSlash ((splitSlash p).dropLast)

theorem splitSlash_ne_nil (l : List Char) : splitSlash l ≠ [] := by
  cases l with
  | nil => simp [splitSlash]
  | cons c cs =>
    simp only [splitSlash]
    split <;> simp

theorem length_splitSlash (l : List Char) :
    (splitSlash l).length = l.count '/' + 1 := by
  induction l with
  | nil => simp [splitSlash]
  | cons c cs ih =>
    cases h : splitSlash cs with
    | nil => exact absurd h (splitSlash_ne_nil cs)
    | cons p ps =>
      rw [h] at ih
      simp only [List.length_cons] at ih
      by_cases hc : c = '/'
      · subst hc
        have hcnt : List.count '/' ('/' :: cs) = List.count '/' cs + 1 := by
          simp [List.count_cons]
        have hsp : splitSlash ('/' :: cs) = [] :: p :: ps := by
          simp [splitSlash, h]
        rw [hsp, hcnt, List.length_cons, List.length_cons]
        omega
      · have hcnt : List.count '/' (c :: cs) = List.count '/' cs := by
          simp [List.count_cons, hc]
        have hsp : splitSlash (c :: cs) = (c :: p) :: ps := by
          simp [splitSlash, h, hc]
        rw [hsp, hcnt, List.length_cons]
        omega

theorem count_slash_of_mem_splitSlash (l : List Char) :
    ∀ p ∈ splitSlash l, p.count '/' = 0 := by
  induction l with
  | nil => intro p hp; simp [splitSlash] at hp; simp [hp]
  | cons c cs ih =>
    intro p hp
    cases h : splitSlash cs with
    | nil => exact absurd h (splitSlash_ne_nil cs)
    | cons q qs =>
      by_cases hc : c = '/'
      · subst hc
        have hsp : splitSlash ('/' :: cs) = [] :: q :: qs := by
          simp [splitSlash, h]
        rw [hsp] at hp
        simp only [List.mem_cons] at hp
        cases hp with
        | inl hp => simp [hp]
        | inr hp =>
          cases hp with
          | inl hp => exact hp ▸ ih q (h ▸ List.mem_cons_self q qs)
          | inr hp => exact ih p (h ▸ List.mem_cons_of_mem q hp)
      · have hsp : splitSlash (c :: cs) = (c :: q) :: qs := by
          simp [splitSlash, h, hc]
        rw [hsp] at hp
        simp only [List.mem_cons] at hp
        cases hp with
        | inl hp =>
          subst hp
          have hq : q.count '/' = 0 := ih q (h ▸ List.mem_cons_self q qs)
          simp [List.count_cons, hq, hc]
        | inr hp => exact ih p (h ▸ List.mem_cons_of_mem q hp)

theorem count_joinSlash (parts : List (List Char)) :
    (joinSlash parts).count '/' =
      (parts.length - 1) + (parts.map (fun p => p.count '/')).sum := by
  induction parts with
  | nil => simp [joinSlash]
  | cons p ps ih =>
    cases ps with
    | nil => simp [joinSlash]
    | cons q qs =>
      simp only [joinSlash, List.count_append, List.count_cons, List.map_cons,
        List.sum_cons, List.length_cons] at *
      simp only [beq_self_eq_true, if_true] at *
      omega

/-- If a path has a nonempty parent path, the parent path is strictly
shallower (fewer `'/'` separators). -/
theorem pathDepth_parentPath_lt (p : List Char) (h : parentPath p ≠ []) :
    pathDepth (parentPath p) < pathDepth p := by
  unfold parentPath pathDepth at *
  have hlen := length_splitSlash p
  have hcnt := count_joinSlash ((splitSlash p).dropLast)
  have hzero : ((splitSlash p).dropLast.map (fun q => q.count '/')).sum = 0 := by
    apply List.sum_eq_zero
    intro x hx
    simp only [List.mem_map] at hx
    obtain ⟨q, hq, hxq⟩ := hx
    have hq' : q ∈ splitSlash p := List.dropLast_subset _ hq
    rw [← hxq]
    exact count_slash_of_mem_splitSlash p q hq'
  have hdl : (splitSlash p).dropLast.length = p.count '/' := by
    rw [List.length_dropLast, hlen]; omega
  by_cases hn : p.count '/' = 0
  · exfalso
    apply h
    have : (splitSlash p).dropLast = [] := by
      rw [← List.length_eq_zero, hdl, hn]
    rw [this]; rfl
  · rw [hcnt, hzero, hdl]; omega

/-! ### Data model

`TransferConfig` (drive_transfer.py lines 36-53) and `FileInfo`
(lines 55-63).  Only the fields the modelled code paths read are kept;
delays are `ℚ`, sizes and counts are `Nat`. -/

structure TransferConfig where
  source_folder_id : List Char
  dest_folder_id : List Char
  max_workers : Nat := 4
  chunk_size : Nat := 8 * 1024 * 1024
  max_retries : Nat := 3
  retry_delay : ℚ := 1
  rate_limit_delay : ℚ := 1 / 10
  adaptive_concurrency : Bool := true
  max_files : Option Nat := none
  deriving DecidableEq

structure FileInfo where
  id : List Char
  name : List Char
  mime_type : List Char
  size : Nat
  parents : List (List Char)
  path : List Char := []
  deriving DecidableEq

/-- The folder mime type `'application/vnd.google-apps.folder'`. -/
def folderMime : List Char := "application/vnd.google-apps.folder".toList

/-- A Python exception value, as far as the transfer code inspects it:
whether it is a `googleapiclient` `HttpError`, its `resp.status` (only
meaningful for `HttpError`), and `str(error).lower()` as a char list. -/
structure PyErr where
  isHttp : Bool
  status : Nat
  text : List Char
  deriving DecidableEq

/-! ### Retry classifier (drive_transfer.py lines 104-191) -/

/-- `pat` is a prefix of the second list (Boolean helper for the
substring test below). -/
def prefixEq : List Char → List Char → Bool
  | [], _ => true
  | _ :: _, [] => false
  | a :: as, b :: bs => a == b && prefixEq as bs

/-- Python's substring containment `pat in t`. -/
def substrIn (pat : List Char) : List Char → Bool
  | [] => prefixEq pat []
  | b :: bs => prefixEq pat (b :: bs) || substrIn pat bs

/-- The substring signatures of `is_network_error` (lines 109-132). -/
def network_error_signatures : List (List Char) :=
  [ "incompleteread".toList,
    "ssl:".toList,
    "decryption failed".toList,
    "bad record mac".toList,
    "cipher operation failed".toList,
    "connectionreseterror".toList,
    "connectionabortederror".toList,
    "timeouterror".toList,
    "ssl.ssleerror".toList,
    "urllib3.exceptions".toList,
    "requests.exceptions.connectionerror".toList,
    "requests.exceptions.timeout".toList,
    "requests.exceptions.sslerror".toList,
    "connection error".toList,
    "network is unreachable".toList,
    "temporary failure in name resolution".toList,
    "connection timed out".toList,
    "connection refused".toList,
    "remote end closed connection".toList,
    "connection reset by peer".toList,
    "broken pipe".toList,
    "connection aborted".toList ]

/-- `is_network_error` (lines 104-134): `str(error).lower()` contains one
of the network signatures.  `PyErr.text` models the lowercased string. -/
def is_network_error (e : PyErr) : Bool :=
  network_error_signatures.any (fun s => substrIn s e.text)

/-- `'sub' in error_str` for the substrings of one dispatch condition in
`handle_network_error`. -/
def hasAnySig (t : List Char) (sigs : List (List Char)) : Bool :=
  sigs.any (fun s => substrIn s t)

/-- `handle_network_error` (lines 136-191), reduced to its observable
retry decision and sleep duration: returns `some waitTime` when the error
is a network error (the source sleeps `waitTime` seconds and returns
`True`, i.e. retry), and `none` otherwise (the source returns `False`
without sleeping).  `j` is the value drawn by
`random.uniform(0.1, 1.0)`; printing and `gc.collect()` have no
modelled effect. -/
def handle_network_error (e : PyErr) (attempt : Nat) (j : ℚ) : Option ℚ :=
  if is_network_error e then
    let t := e.text
    let bp : ℚ × ℚ :=
      if hasAnySig t [ "ssl:".toList, "decryption failed".toList,
          "bad record mac".toList, "cipher operation failed".toList,
          "wrong version number".toList ] then
        (15, 300)
      else if hasAnySig t [ "incompleteread".toList,
          "connectionreseterror".toList ] then
        (8, 120)
      else if hasAnySig t [ "timeouterror".toList,
          "connection timed out".toList ] then
        (12, 180)
      else
        (5, 60)
    some (min (bp.1 * 2 ^ attempt * j) bp.2)
  else
    none

/-- Backoff categories of spec section 4.4 (the dispatch arms of
`handle_network_error`). -/
inductive NetCat
  | tls
  | reset
  | timeoutCat
  | generic
  deriving DecidableEq

/-- Modelled from the spec: `classify` of section 4.4 restricted to the
four transient network categories, using the source's dispatch
conditions in order. -/
def classifyNet (t : List Char) : NetCat :=
  if hasAnySig t [ "ssl:".toList, "decryption failed".toList,
      "bad record mac".toList, "cipher operation failed".toList,
      "wrong version number".toList ] then
    NetCat.tls
  else if hasAnySig t [ "incompleteread".toList,
      "connectionreseterror".toList ] then
    NetCat.reset
  else if hasAnySig t [ "timeouterror".toList,
      "connection timed out".toList ] then
    NetCat.timeoutCat
  else
    NetCat.generic

/-- Modelled from the spec: the `(baseDelay, maxDelay)` pair per backoff
category (spec section 4.4), with the numeric values of the source
(lines 146-169). -/
def backoffParams : NetCat → ℚ × ℚ
  | NetCat.tls => (15, 300)
  | NetCat.reset => (8, 120)
  | NetCat.timeoutCat => (12, 180)
  | NetCat.generic => (5, 60)

/-- HTTP statuses treated as retriable rate limiting, from
drive_transfer.py lines 367 and 503. -/
def retriable_statuses : List Nat := [403, 429, 500, 502, 503, 504]

/-! ### Folder mirror (drive_transfer.py lines 377-457)

The destination drive is modelled as a list of (non-trashed) destination
folders plus a fresh-id counter for ids assigned by `files().create`.
Provider faults are injected by a `MirrorOracle`: for the folder
currently being processed it decides whether the existence query
(`_check_folder_exists`) raises an `HttpError` and whether the
`files().create` call raises an `HttpError`.  Indexing faults by the
folder is faithful because each folder triggers at most one existence
query and one create call per run. -/

structure DestFolder where
  id : List Char
  name : List Char
  parent : List Char
  deriving DecidableEq

structure MirrorState where
  folder_mapping : List (List Char × List Char)
  dest : List DestFolder
  nextId : Nat
  deriving DecidableEq

structure MirrorOracle where
  checkFault : FileInfo → Bool
  createFault : FileInfo → Bool

/-- Fresh destination id assigned by a successful `files().create`. -/
def freshId (n : Nat) : List Char := 'g' :: Nat.toDigits 10 n

/-- `_check_folder_exists` (lines 437-457).  The destination query
filters on name, parent, folder mime type and `trashed = false`; the
`dest` list holds exactly the non-trashed destination folders, so the
filter here matches on name and parent.  When the call raises
`HttpError` (`httpFault = true`) the handler at lines 455-457 swallows
it and returns `None`; a `None` response (lines 446-448) also yields
`None`; otherwise the id of the first matching file is returned. -/
def check_folder_exists (dest : List DestFolder) (httpFault : Bool)
    (folder_name : List Char) (parent_id : List Char) : Option (List Char) :=
  if httpFault then none
  else
    match dest.filter (fun f => f.name == folder_name && f.parent == parent_id) with
    | [] => none
    | f :: _ => some f.id

/-- Resolution of the destination parent id from a node's path, shared
by `create_folder_structure` (lines 394-404) and `transfer_file_safe`
(lines 476-489): take the parent path; if it is empty use
`config.dest_folder_id`; otherwise look for the first node in `pool`
whose path equals the parent path and, when it is found and mapped, use
its mapped id, else fall back to `config.dest_folder_id`. -/
def resolveDestParent (dest_folder_id : List Char) (pool : List FileInfo)
    (mapping : List (List Char × List Char)) (path : List Char) : List Char :=
  let parent_path := parentPath path
  if parent_path = [] then dest_folder_id
  else
    match pool.find? (fun f => f.path == parent_path) with
    | none => dest_folder_id
    | some parent_folder =>
      match List.lookup parent_folder.id mapping with
      | some d => d
      | none => dest_folder_id

/-- The body of the `for folder in sorted_folders` loop of
`create_folder_structure` (lines 389-435). -/
def processFolder (dest_folder_id : List Char) (folders : List FileInfo)
    (o : MirrorOracle) (st : MirrorState) (folder : FileInfo) : MirrorState :=
  if (List.lookup folder.id st.folder_mapping).isSome then
    st
  else
    let parent_id := resolveDestParent dest_folder_id folders st.folder_mapping folder.path
    match check_folder_exists st.dest (o.checkFault folder) folder.name parent_id with
    | some existing_folder_id =>
      { st with folder_mapping := (folder.id, existing_folder_id) :: st.folder_mapping }
    | none =>
      if o.createFault folder then
        st
      else
        let nid := freshId st.nextId
        { folder_mapping := (folder.id, nid) :: st.folder_mapping,
          dest := st.dest ++ [⟨nid, folder.name, parent_id⟩],
          nextId := st.nextId + 1 }

/-- Stable insertion of a folder into a depth-sorted list, placing it
after all folders of strictly smaller depth and before folders of equal
depth seen later. -/
def insertByDepth (f : FileInfo) : List FileInfo → List FileInfo
  | [] => [f]
  | g :: gs =>
    if pathDepth g.path < pathDepth f.path then g :: insertByDepth f gs
    else f :: g :: gs

/-- Python's stable `sorted(folders.values(), key=lambda x: x.path.count('/'))`
(lines 386-387), modelled by a stable insertion sort (stable sorts of
the same key agree pointwise). -/
def sortByDepth : List FileInfo → List FileInfo
  | [] => []
  | f :: fs => insertByDepth f (sortByDepth fs)

/-- The folder subset of a node set:
`{fid: f for fid, f in files.items() if f.mime_type == '...folder'}`
(lines 382-383 and 773-774). -/
def foldersOf (files : List FileInfo) : List FileInfo :=
  files.filter (fun f => f.mime_type == folderMime)

/-- `create_folder_structure` (lines 377-435): filter the folder nodes,
sort ascending by path depth, and process each folder in order. -/
def create_folder_structure (dest_folder_id : List Char)
    (files : List FileInfo) (o : MirrorOracle) (st : MirrorState) : MirrorState :=
  (sortByDepth (foldersOf files)).foldl
    (processFolder dest_folder_id (foldersOf files) o) st

/-- Number of destination folders with a given `(name, parentId)` pair. -/
def countPair (dest : List DestFolder) (n : List Char) (p : List Char) : Nat :=
  (dest.filter (fun f => f.name == n && f.parent == p)).length

/-! ### Adaptive concurrency (drive_transfer.py lines 79-80 and 195-211) -/

structure ConcState where
  error_count : Nat
  current_workers : Nat
  deriving DecidableEq

/-- The initial adaptive-concurrency state set in `__init__`
(lines 79-80): `error_count = 0`, `current_workers = max_workers`. -/
def initConcState (max_workers : Nat) : ConcState :=
  { error_count := 0, current_workers := max_workers }

/-- `adjust_concurrency` (lines 195-211). -/
def adjust_concurrency (adaptive : Bool) (max_workers : Nat)
    (st : ConcState) (success : Bool) : ConcState :=
  if !adaptive then st
  else if success then
    let ec := max 0 (st.error_count - 1)
    if ec = 0 ∧ st.current_workers < max_workers then
      { error_count := ec,
        current_workers := min (st.current_workers + 1) max_workers }
    else
      { error_count := ec, current_workers := st.current_workers }
  else
    let ec := st.error_count + 1
    if 3 ≤ ec ∧ 2 < st.current_workers then
      { error_count := ec, current_workers := max 2 (st.current_workers - 1) }
    else
      { error_count := ec, current_workers := st.current_workers }

/-! ### File transfer (drive_transfer.py lines 459-742)

A single attempt of `_transfer_regular_file` (one loop iteration:
download of all chunks plus upload of all chunks) either completes or
raises some exception somewhere inside the iteration.  The oracle
`att : Nat → Option PyErr` gives, per attempt index, `none` when the
whole download+upload iteration completes and `some e` when exception
`e` is raised during it.  Tracing the source handlers (lines 651-742):
a raised `e` leads to `handle_network_error` (a sleep) followed by the
next attempt exactly when `is_network_error(e)` holds and
`attempt < max_retries - 1`; in every other case the outer handler at
lines 734-740 returns `False` — note that it catches *every* exception,
`HttpError` included, so `_transfer_regular_file` never raises.
`jit : Nat → ℚ` gives the `random.uniform(0.1, 1.0)` draw used by the
backoff sleep of each attempt. -/

structure TransferResult where
  success : Bool
  attempts : Nat
  sleeps : List ℚ
  deriving DecidableEq

/-- The `for attempt in range(max_retries)` loop of
`_transfer_regular_file` (lines 634-742), with `fuel` the number of
remaining iterations (`attempt = max_retries - fuel`). -/
def regularGo (max_retries : Nat) (att : Nat → Option PyErr) (jit : Nat → ℚ) :
    Nat → TransferResult
  | 0 => { success := false, attempts := 0, sleeps := [] }
  | fuel + 1 =>
    let attempt := max_retries - (fuel + 1)
    match att attempt with
    | none => { success := true, attempts := 1, sleeps := [] }
    | some e =>
      if is_network_error e ∧ attempt < max_retries - 1 then
        match handle_network_error e attempt (jit attempt) with
        | some w =>
          let r := regularGo max_retries att jit fuel
          { success := r.success, attempts := r.attempts + 1, sleeps := w :: r.sleeps }
        | none =>
          { success := false, attempts := 1, sleeps := [] }
      else
        { success := false, attempts := 1, sleeps := [] }

/-- `_transfer_regular_file` (lines 632-742): runs the retry loop;
returns a Boolean, never raises. -/
def transfer_regular_file (max_retries : Nat) (att : Nat → Option PyErr)
    (jit : Nat → ℚ) : TransferResult :=
  regularGo max_retries att jit max_retries

/-- The keys of `export_formats` in `_transfer_google_doc`
(lines 532-536). -/
def export_format_keys : List (List Char) :=
  [ "application/vnd.google-apps.document".toList,
    "application/vnd.google-apps.spreadsheet".toList,
    "application/vnd.google-apps.presentation".toList ]

/-- The `for attempt in range(max_retries)` loop of
`_transfer_google_doc` (lines 530-630): an unsupported Google Doc type
returns `False` inside the first iteration (lines 538-540); otherwise
the handlers mirror `_transfer_regular_file` — every exception is
caught, and only network errors with attempts remaining are retried. -/
def gdocGo (max_retries : Nat) (mime : List Char) (att : Nat → Option PyErr)
    (jit : Nat → ℚ) : Nat → TransferResult
  | 0 => { success := false, attempts := 0, sleeps := [] }
  | fuel + 1 =>
    let attempt := max_retries - (fuel + 1)
    if (export_format_keys.contains mime) = false then
      { success := false, attempts := 1, sleeps := [] }
    else
      match att attempt with
      | none => { success := true, attempts := 1, sleeps := [] }
      | some e =>
        if is_network_error e ∧ attempt < max_retries - 1 then
          match handle_network_error e attempt (jit attempt) with
          | some w =>
            let r := gdocGo max_retries mime att jit fuel
            { success := r.success, attempts := r.attempts + 1, sleeps := w :: r.sleeps }
          | none =>
            { success := false, attempts := 1, sleeps := [] }
        else
          { success := false, attempts := 1, sleeps := [] }

/-- `_transfer_google_doc` (lines 528-630). -/
def transfer_google_doc (max_retries : Nat) (mime : List Char)
    (att : Nat → Option PyErr) (jit : Nat → ℚ) : TransferResult :=
  gdocGo max_retries mime att jit max_retries

/-- `file_info.mime_type.startswith('application/vnd.google-apps')`
(line 492). -/
def isGoogleAppsMime (mime : List Char) : Bool :=
  prefixEq ("application/vnd.google-apps".toList) mime

/-- `transfer_file_safe` (lines 459-526).  Its `for attempt in
range(max_retries)` loop effectively runs at most one iteration: the
`try` body only resolves the destination parent (pure) and calls
`_transfer_google_doc` / `_transfer_regular_file`, and both callees
catch every exception (`HttpError` is an `Exception` subclass) and
return a Boolean, so the `except HttpError` handler at lines 502-515 and
the `except Exception` handler at lines 516-524 are unreachable and the
body returns during the first iteration.  With `max_retries = 0` the
loop body never runs and the function falls through to `return False`
(line 526) without resolving a parent.  The second component is the
destination parent id passed to the callee (`none` when the body never
ran).  The `adjust_concurrency(result)` call (lines 494, 499) acts on
the separately modelled `ConcState` and is not repeated here. -/
def transfer_file_safe (cfg : TransferConfig) (file_info : FileInfo)
    (source_folders : List FileInfo) (mapping : List (List Char × List Char))
    (att : Nat → Option PyErr) (jit : Nat → ℚ) :
    TransferResult × Option (List Char) :=
  if cfg.max_retries = 0 then
    ({ success := false, attempts := 0, sleeps := [] }, none)
  else
    let parent_id := resolveDestParent cfg.dest_folder_id source_folders
      mapping file_info.path
    if isGoogleAppsMime file_info.mime_type then
      (transfer_google_doc cfg.max_retries file_info.mime_type att jit, some parent_id)
    else
      (transfer_regular_file cfg.max_retries att jit, some parent_id)

/-- The counters reported at the end of `transfer_all_files`
(lines 746-758 and 843-853). -/
structure Summary where
  total_files : Nat
  transferred_files : Nat
  transferred_bytes : Nat
  deriving DecidableEq

/-- The file list formed at lines 764-770: drop folders, then apply the
`max_files` debug limit.  Python's `if self.config.max_files` is falsy
for `None` and for `0`. -/
def fileListOf (cfg : TransferConfig) (files : List FileInfo) : List FileInfo :=
  let file_list := files.filter (fun f => !(f.mime_type == folderMime))
  match cfg.max_files with
  | none => file_list
  | some m => if m ≠ 0 ∧ m < file_list.length then file_list.take m else file_list

/-- One resolved future: `update_progress(increment_files=1,
increment_bytes=file_info.size, ...)` exactly when the task returned
`True` (lines 819-826 and 744-758). -/
def summaryStep (g : FileInfo → Bool) (s : Summary) (f : FileInfo) : Summary :=
  if g f then
    { s with transferred_files := s.transferred_files + 1,
             transferred_bytes := s.transferred_bytes + f.size }
  else s

/-- `transfer_all_files` (lines 761-853), sequentialised: the thread
pool dispatches `transfer_file_safe` per file and, as each future
resolves, `update_progress` (lines 744-758) adds 1 file and the file's
size exactly when the task returned `True` (lines 819-826).  The
summary counters are order-independent sums over per-task outcomes, so
the batched parallel loop is modelled as a left fold.  `att` gives each
file its per-attempt outcome oracle. -/
def transfer_all_files (cfg : TransferConfig) (files : List FileInfo)
    (mapping : List (List Char × List Char))
    (att : FileInfo → Nat → Option PyErr) (jit : Nat → ℚ) : Summary :=
  (fileListOf cfg files).foldl
    (summaryStep (fun f =>
      (transfer_file_safe cfg f (foldersOf files) mapping (att f) jit).1.success))
    { total_files := (fileListOf cfg files).length, transferred_files := 0,
      transferred_bytes := 0 }

/-! ### Tree scanner (drive_transfer.py lines 276-331)

`get_folder_structure` first fetches a flat item list
(`_get_all_files_in_folder`) and then builds paths with an explicit
work queue.  The flat list is an input here (`all_files`), each raw dict
modelled by `RawItem`.  The Python dicts `structure` and `folder_paths`
are association lists where an assignment conses the new pair at the
front, so `List.lookup` (first match) returns the latest write.  The
`processed` field is the list of folder ids dequeued so far, in order —
the source only keeps their count (`processed_folders`), and the list
refines that counter so the processing order can be stated.  The
`while folders_to_process:` loop is given explicit fuel; every theorem
below holds for every fuel value. -/

structure RawItem where
  id : List Char
  name : List Char
  mimeType : List Char
  size : Nat
  parents : List (List Char)
  deriving DecidableEq

structure ScanState where
  queue : List (List Char)
  folder_paths : List (List Char × List Char)
  structure_ : List (List Char × FileInfo)
  processed : List (List Char)
  deriving DecidableEq

/-- `f"{current_path}/{item['name']}" if current_path else item['name']`
(line 314). -/
def mkChildPath (current_path : List Char) (nm : List Char) : List Char :=
  if current_path = [] then nm else current_path ++ '/' :: nm

/-- The `FileInfo(...)` record built for one raw item (lines 315-322). -/
def mkScanFileInfo (item : RawItem) (file_path : List Char) : FileInfo :=
  { id := item.id, name := item.name, mime_type := item.mimeType,
    size := item.size, parents := item.parents, path := file_path }

/-- The body of the `for item in folder_items` loop (lines 313-328),
threading (queue, folder_paths, structure). -/
def scanItemStep (current_path : List Char)
    (s : List (List Char) × List (List Char × List Char) × List (List Char × FileInfo))
    (item : RawItem) :
    List (List Char) × List (List Char × List Char) × List (List Char × FileInfo) :=
  let file_path := mkChildPath current_path item.name
  let fi : FileInfo := mkScanFileInfo item file_path
  let st' := (item.id, fi) :: s.2.2
  if item.mimeType == folderMime then
    (s.1 ++ [item.id], (item.id, file_path) :: s.2.1, st')
  else
    (s.1, s.2.1, st')

/-- The `while folders_to_process:` loop (lines 301-328). -/
def scanLoop (all_files : List RawItem) : Nat → ScanState → ScanState
  | 0, s => s
  | fuel + 1, s =>
    match s.queue with
    | [] => s
    | current :: rest =>
      let current_path := (List.lookup current s.folder_paths).getD []
      let folder_items := all_files.filter (fun it => it.parents.contains current)
      let r := folder_items.foldl (scanItemStep current_path)
        (rest, s.folder_paths, s.structure_)
      scanLoop all_files fuel
        { queue := r.1, folder_paths := r.2.1, structure_ := r.2.2,
          processed := s.processed ++ [current] }

/-- `get_folder_structure` (lines 276-331): seed the queue with the root
folder id and its base path and run the work loop. -/
def get_folder_structure (folder_id : List Char) (base_path : List Char)
    (all_files : List RawItem) (fuel : Nat) : ScanState :=
  scanLoop all_files fuel
    { queue := [folder_id], folder_paths := [(folder_id, base_path)],
      structure_ := [], processed := [] }

/-! ### Claim C4: adaptive concurrency bounds -/

/-- One `adjust_concurrency` step preserves
`2 ≤ current_workers ≤ max_workers` when `2 ≤ max_workers`. -/
theorem adjust_concurrency_step_bounds (adaptive : Bool) (max_workers : Nat)
    (h2 : 2 ≤ max_workers) (st : ConcState) (b : Bool)
    (h : 2 ≤ st.current_workers ∧ st.current_workers ≤ max_workers) :
    2 ≤ (adjust_concurrency adaptive max_workers st b).current_workers ∧
      (adjust_concurrency adaptive max_workers st b).current_workers ≤ max_workers := by
  cases adaptive with
  | false => simpa [adjust_concurrency] using h
  | true =>
    cases b with
    | false =>
      by_cases hc : 2 ≤ st.error_count ∧ 2 < st.current_workers
      · have key : (adjust_concurrency true max_workers st false).current_workers
            = max 2 (st.current_workers - 1) := by
          simp [adjust_concurrency, hc]
        have hm : max 2 (st.current_workers - 1) = st.current_workers - 1 :=
          max_eq_right (by omega)
        rw [key, hm]
        omega
      · have key : (adjust_concurrency true max_workers st false).current_workers
            = st.current_workers := by
          simp [adjust_concurrency, hc]
        rw [key]
        exact h
    | true =>
      by_cases hc : max 0 (st.error_count - 1) = 0 ∧ st.current_workers < max_workers
      · have key : (adjust_concurrency true max_workers st true).current_workers
            = min (st.current_workers + 1) max_workers := by
          simp only [adjust_concurrency, Bool.not_true, Bool.false_eq_true,
            if_false, if_true, if_pos hc]
        have hm : min (st.current_workers + 1) max_workers = st.current_workers + 1 :=
          min_eq_left (by omega)
        rw [key, hm]
        omega
      · have key : (adjust_concurrency true max_workers st true).current_workers
            = st.current_workers := by
          simp only [adjust_concurrency, Bool.not_true, Bool.false_eq_true,
            if_false, if_true, if_neg hc]
        rw [key]
        exact h

theorem foldl_adjust_concurrency_bounds (adaptive : Bool) (max_workers : Nat)
    (h2 : 2 ≤ max_workers) :
    ∀ (outcomes : List Bool) (st : ConcState),
      2 ≤ st.current_workers → st.current_workers ≤ max_workers →
      2 ≤ (outcomes.foldl (adjust_concurrency adaptive max_workers) st).current_workers ∧
        (outcomes.foldl (adjust_concurrency adaptive max_workers) st).current_workers ≤ max_workers := by
  intro outcomes
  induction outcomes with
  | nil => intro st hl hu; exact ⟨hl, hu⟩
  | cons b bs ih =>
    intro st hl hu
    have hstep := adjust_concurrency_step_bounds adaptive max_workers h2 st b ⟨hl, hu⟩
    simpa using ih (adjust_concurrency adaptive max_workers st b) hstep.1 hstep.2

/-- C4 counterexample: with `max_workers = 1` (allowed, since spec
section 6 only requires `maxWorkers ≥ 1`) and adaptive concurrency
enabled, `current_workers` starts at `max_workers = 1` (lines 79-80)
and remains `1` after a failed task, outside the claimed interval
`[2, maxWorkers] = [2, 1]`. -/
theorem C4_counterexample :
    ¬ (2 ≤ (List.foldl (adjust_concurrency true 1) (initConcState 1)
              [false]).current_workers ∧
       (List.foldl (adjust_concurrency true 1) (initConcState 1)
              [false]).current_workers ≤ 1) := by
  decide

/-- C4 (amended): provided `maxWorkers ≥ 2`, for every sequence of
per-task success/failure outcomes with adaptive concurrency enabled,
folding `adjust_concurrency` from the initial state keeps
`current_workers` within `[2, maxWorkers]`; on success the error
counter is decremented with floor 0 and `current_workers` changes only
by growing exactly 1 when the decremented counter is 0 and
`current_workers < maxWorkers`; on failure the counter is incremented
and `current_workers` changes only by shrinking exactly 1 when the
incremented counter has reached 3 and `current_workers > 2`.  (When
`maxWorkers = 1`, the claim as stated fails — see `C4_counterexample` —
because `current_workers` stays at `maxWorkers = 1`.) -/
theorem C4_adjust_concurrency_bounds (max_workers : Nat) (h2 : 2 ≤ max_workers)
    (outcomes : List Bool) :
    (2 ≤ (outcomes.foldl (adjust_concurrency true max_workers)
            (initConcState max_workers)).current_workers ∧
     (outcomes.foldl (adjust_concurrency true max_workers)
            (initConcState max_workers)).current_workers ≤ max_workers) ∧
    (∀ st : ConcState,
      ((adjust_concurrency true max_workers st true).error_count
          = st.error_count - 1 ∧
        ((adjust_concurrency true max_workers st true).current_workers
            = st.current_workers ∨
         ((adjust_concurrency true max_workers st true).current_workers
              = st.current_workers + 1 ∧
          st.error_count - 1 = 0 ∧ st.current_workers < max_workers))) ∧
      ((adjust_concurrency true max_workers st false).error_count
          = st.error_count + 1 ∧
        ((adjust_concurrency true max_workers st false).current_workers
            = st.current_workers ∨
         ((adjust_concurrency true max_workers st false).current_workers
              = st.current_workers - 1 ∧
          3 ≤ st.error_count + 1 ∧ 2 < st.current_workers)))) := by
  refine ⟨foldl_adjust_concurrency_bounds true max_workers h2 outcomes
    (initConcState max_workers) h2 (le_refl max_workers), ?_⟩
  intro st
  refine ⟨⟨?_, ?_⟩, ⟨?_, ?_⟩⟩
  · by_cases hc : st.error_count - 1 = 0 ∧ st.current_workers < max_workers
    · simp [adjust_concurrency, hc]
    · simp [adjust_concurrency, hc]
  · by_cases hc : max 0 (st.error_count - 1) = 0 ∧ st.current_workers < max_workers
    · right
      have key : (adjust_concurrency true max_workers st true).current_workers
          = min (st.current_workers + 1) max_workers := by
        simp only [adjust_concurrency, Bool.not_true, Bool.false_eq_true,
          if_false, if_true, if_pos hc]
      rw [key, min_eq_left (by omega)]
      refine ⟨rfl, ?_, hc.2⟩
      omega
    · left
      simp only [adjust_concurrency, Bool.not_true, Bool.false_eq_true,
        if_false, if_true, if_neg hc]
  · by_cases hc : 2 ≤ st.error_count ∧ 2 < st.current_workers
    · simp [adjust_concurrency, hc]
    · simp [adjust_concurrency, hc]
  · by_cases hc : 2 ≤ st.error_count ∧ 2 < st.current_workers
    · right
      have key : (adjust_concurrency true max_workers st false).current_workers
          = max 2 (st.current_workers - 1) := by
        simp [adjust_concurrency, hc]
      rw [key, max_eq_right (by omega)]
      refine ⟨rfl, by omega, hc.2⟩
    · left
      have key : (adjust_concurrency true max_workers st false).current_workers
          = st.current_workers := by
        simp [adjust_concurrency, hc]
      rw [key]

theorem C4_witness :
    2 ≤ 4 ∧
      (2 ≤ (List.foldl (adjust_concurrency true 4) (initConcState 4)
              [false, false, false, true, true]).current_workers ∧
       (List.foldl (adjust_concurrency true 4) (initConcState 4)
              [false, false, false, true, true]).current_workers ≤ 4) :=
  ⟨by decide, (C4_adjust_concurrency_bounds 4 (by decide)
      [false, false, false, true, true]).1⟩

/-! ### Claim C7: backoff formula and category escalation -/

/-- C7: for every classified network error and attempt, the backoff wait
equals `min(base * 2^attempt * jitter, max)` where `(base, max)` is the
pair of the error's dispatch category; every produced wait is capped by
`max`; and the TLS-handshake and timeout categories use strictly longer
bases and caps than the connection-reset and generic-network
categories. -/
theorem C7_backoff_policy (e : PyErr) (attempt : Nat) (j : ℚ)
    (h : is_network_error e = true) :
    handle_network_error e attempt j =
      some (min ((backoffParams (classifyNet e.text)).1 * 2 ^ attempt * j)
        ((backoffParams (classifyNet e.text)).2)) ∧
    (∀ w : ℚ, handle_network_error e attempt j = some w →
      w ≤ (backoffParams (classifyNet e.text)).2) ∧
    (backoffParams NetCat.tls).1 > (backoffParams NetCat.reset).1 ∧
    (backoffParams NetCat.tls).1 > (backoffParams NetCat.generic).1 ∧
    (backoffParams NetCat.timeoutCat).1 > (backoffParams NetCat.reset).1 ∧
    (backoffParams NetCat.timeoutCat).1 > (backoffParams NetCat.generic).1 ∧
    (backoffParams NetCat.tls).2 > (backoffParams NetCat.reset).2 ∧
    (backoffParams NetCat.tls).2 > (backoffParams NetCat.generic).2 ∧
    (backoffParams NetCat.timeoutCat).2 > (backoffParams NetCat.reset).2 ∧
    (backoffParams NetCat.timeoutCat).2 > (backoffParams NetCat.generic).2 := by
  have hmain : handle_network_error e attempt j =
      some (min ((backoffParams (classifyNet e.text)).1 * 2 ^ attempt * j)
        ((backoffParams (classifyNet e.text)).2)) := by
    simp only [handle_network_error, classifyNet, h, if_true]
    split_ifs <;> rfl
  refine ⟨hmain, ?_, by norm_num [backoffParams], by norm_num [backoffParams],
    by norm_num [backoffParams], by norm_num [backoffParams],
    by norm_num [backoffParams], by norm_num [backoffParams],
    by norm_num [backoffParams], by norm_num [backoffParams]⟩
  intro w hw
  rw [hmain] at hw
  have hw' := Option.some.inj hw
  rw [← hw']
  exact min_le_right _ _

def c7e : PyErr := { isHttp := false, status := 0, text := "broken pipe".toList }

theorem C7_witness :
    is_network_error c7e = true ∧
      handle_network_error c7e 1 (1 / 2) =
        some (min ((backoffParams (classifyNet c7e.text)).1 * 2 ^ 1 * (1 / 2))
          ((backoffParams (classifyNet c7e.text)).2)) :=
  ⟨by decide, (C7_backoff_policy c7e 1 (1 / 2) (by decide)).1⟩

/-! ### Claim C2: folder-mirror idempotence -/

theorem countPair_append_one (dest : List DestFolder) (g : DestFolder)
    (n p : List Char) :
    countPair (dest ++ [g]) n p =
      countPair dest n p + (if g.name == n && g.parent == p then 1 else 0) := by
  unfold countPair
  rw [List.filter_append]
  by_cases hg : (g.name == n && g.parent == p) = true
  · simp [List.filter, hg]
  · simp [List.filter, hg]

/-- A fault-free existence check that returns `none` really means no
destination folder matches the `(name, parent)` pair. -/
theorem check_folder_exists_none_filter (dest : List DestFolder)
    (nm pid : List Char)
    (h : check_folder_exists dest false nm pid = none) :
    dest.filter (fun g => g.name == nm && g.parent == pid) = [] := by
  unfold check_folder_exists at h
  simp only [Bool.false_eq_true, if_false] at h
  cases hf : dest.filter (fun g => g.name == nm && g.parent == pid) with
  | nil => rfl
  | cons a as => rw [hf] at h; exact absurd h (by simp)

theorem processFolder_countPair_le (dest_folder_id : List Char)
    (folders : List FileInfo) (o : MirrorOracle) (st : MirrorState)
    (f : FileInfo) (hc : o.checkFault f = false) (n p : List Char) :
    countPair (processFolder dest_folder_id folders o st f).dest n p
      ≤ max 1 (countPair st.dest n p) := by
  by_cases hm : (List.lookup f.id st.folder_mapping).isSome
  · simp only [processFolder, if_pos hm]
    exact le_max_right 1 _
  · simp only [processFolder, hm, Bool.false_eq_true, if_false]
    rw [hc]
    cases hchk : check_folder_exists st.dest false f.name
        (resolveDestParent dest_folder_id folders st.folder_mapping f.path) with
    | some eid =>
      simp only [hchk]
      exact le_max_right 1 _
    | none =>
      simp only [hchk]
      by_cases hcf : o.createFault f = true
      · simp only [hcf, if_true]
        exact le_max_right 1 _
      · simp only [hcf, Bool.false_eq_true, if_false]
        rw [countPair_append_one]
        by_cases hmatch : ((f.name == n) &&
            (resolveDestParent dest_folder_id folders st.folder_mapping f.path == p)) = true
        · have hn : f.name = n := by
            have := (Bool.and_eq_true _ _).mp hmatch
            exact eq_of_beq this.1
          have hp : resolveDestParent dest_folder_id folders st.folder_mapping f.path = p := by
            have := (Bool.and_eq_true _ _).mp hmatch
            exact eq_of_beq this.2
          have h0 : countPair st.dest n p = 0 := by
            unfold countPair
            rw [← hn, ← hp, check_folder_exists_none_filter st.dest f.name _ hchk]
            rfl
          simp [hmatch, h0]
        · simp only [hmatch, Bool.false_eq_true, if_false]
          have : countPair st.dest n p ≤ max 1 (countPair st.dest n p) :=
            le_max_right 1 _
          omega

theorem foldl_processFolder_countPair_le (dest_folder_id : List Char)
    (folders : List FileInfo) (o : MirrorOracle)
    (hc : ∀ f, o.checkFault f = false) :
    ∀ (l : List FileInfo) (st : MirrorState) (n p : List Char),
      countPair ((l.foldl (processFolder dest_folder_id folders o) st)).dest n p
        ≤ max 1 (countPair st.dest n p) := by
  intro l
  induction l with
  | nil => intro st n p; exact le_max_right 1 _
  | cons f fs ih =>
    intro st n p
    have h1 := ih (processFolder dest_folder_id folders o st f) n p
    have h2 := processFolder_countPair_le dest_folder_id folders o st f (hc f) n p
    simp only [List.foldl_cons]
    calc countPair ((fs.foldl (processFolder dest_folder_id folders o)
          (processFolder dest_folder_id folders o st f))).dest n p
        ≤ max 1 (countPair (processFolder dest_folder_id folders o st f).dest n p) := h1
      _ ≤ max 1 (max 1 (countPair st.dest n p)) := max_le_max (le_refl 1) h2
      _ = max 1 (countPair st.dest n p) := by rw [← max_assoc, max_self]

/-- C2: with a fault-free existence check, one run of the folder mirror
leaves at most `max 1 c` destination folders for every `(name,
parentId)` pair that had `c` before the run — so a run creates at most
one folder per pair, and a second run against a destination that
already holds the pair creates none.  Moreover an already-mapped source
folder is skipped unchanged, and when the existence check finds a
matching destination folder its id is recorded in the mapping and no
folder is created. -/
theorem C2_mirror_idempotent (dest_folder_id : List Char)
    (files : List FileInfo) (o : MirrorOracle) (st : MirrorState)
    (n p : List Char) (hc : ∀ f, o.checkFault f = false) :
    countPair (create_folder_structure dest_folder_id files o st).dest n p
      ≤ max 1 (countPair st.dest n p) ∧
    (∀ (pool : List FileInfo) (st' : MirrorState) (f : FileInfo),
      (List.lookup f.id st'.folder_mapping).isSome →
      processFolder dest_folder_id pool o st' f = st') ∧
    (∀ (pool : List FileInfo) (st' : MirrorState) (f : FileInfo) (eid : List Char),
      (List.lookup f.id st'.folder_mapping).isSome = false →
      check_folder_exists st'.dest (o.checkFault f) f.name
          (resolveDestParent dest_folder_id pool st'.folder_mapping f.path) = some eid →
      (processFolder dest_folder_id pool o st' f).dest = st'.dest ∧
      (processFolder dest_folder_id pool o st' f).folder_mapping
          = (f.id, eid) :: st'.folder_mapping) := by
  refine ⟨?_, ?_, ?_⟩
  · exact foldl_processFolder_countPair_le dest_folder_id
      (foldersOf files) o hc (sortByDepth (foldersOf files)) st n p
  · intro pool st' f hm
    simp only [processFolder, if_pos hm]
  · intro pool st' f eid hm hchk
    simp only [processFolder, hm, Bool.false_eq_true, if_false, hchk]
    refine ⟨?_, ?_⟩ <;> first | rfl | trivial

def c2Oracle : MirrorOracle := ⟨fun _ => false, fun _ => false⟩

def c2A : FileInfo :=
  { id := "a".toList, name := "A".toList, mime_type := folderMime,
    size := 0, parents := [], path := "A".toList }

def c2St : MirrorState := { folder_mapping := [], dest := [], nextId := 0 }

theorem C2_witness :
    (∀ f, c2Oracle.checkFault f = false) ∧
      countPair (create_folder_structure ("D".toList) [c2A] c2Oracle c2St).dest
          ("A".toList) ("D".toList)
        ≤ max 1 (countPair c2St.dest ("A".toList) ("D".toList)) :=
  ⟨fun _ => rfl,
    (C2_mirror_idempotent ("D".toList) [c2A] c2Oracle c2St ("A".toList)
      ("D".toList) (fun _ => rfl)).1⟩

/-! ### Claim C3: depth-ascending processing order -/

theorem mem_insertByDepth (f x : FileInfo) (l : List FileInfo) :
    x ∈ insertByDepth f l ↔ x = f ∨ x ∈ l := by
  induction l with
  | nil => simp [insertByDepth]
  | cons g gs ih =>
    by_cases hlt : pathDepth g.path < pathDepth f.path
    · simp only [insertByDepth, if_pos hlt, List.mem_cons, ih]
      tauto
    · simp only [insertByDepth, if_neg hlt, List.mem_cons]

theorem pairwise_insertByDepth (f : FileInfo) (l : List FileInfo)
    (h : l.Pairwise (fun a b => pathDepth a.path ≤ pathDepth b.path)) :
    (insertByDepth f l).Pairwise (fun a b => pathDepth a.path ≤ pathDepth b.path) := by
  induction l with
  | nil => simp [insertByDepth]
  | cons g gs ih =>
    rw [List.pairwise_cons] at h
    by_cases hlt : pathDepth g.path < pathDepth f.path
    · simp only [insertByDepth, if_pos hlt]
      rw [List.pairwise_cons]
      refine ⟨?_, ih h.2⟩
      intro x hx
      rcases (mem_insertByDepth f x gs).mp hx with hx | hx
      · exact hx ▸ le_of_lt hlt
      · exact h.1 x hx
    · simp only [insertByDepth, if_neg hlt]
      rw [List.pairwise_cons]
      refine ⟨?_, List.pairwise_cons.mpr h⟩
      intro x hx
      rcases List.mem_cons.mp hx with hx | hx
      · exact hx ▸ le_of_not_lt hlt
      · exact le_trans (le_of_not_lt hlt) (h.1 x hx)

theorem sortByDepth_pairwise (l : List FileInfo) :
    (sortByDepth l).Pairwise (fun a b => pathDepth a.path ≤ pathDepth b.path) := by
  induction l with
  | nil => simp [sortByDepth]
  | cons f fs ih =>
    simpa [sortByDepth] using pairwise_insertByDepth f (sortByDepth fs) ih

/-- C3: the mirror folds over the folders sorted ascending by path depth
(conjunct 1 and 2); in that order any occurrence of a folder's
parent-by-path sits strictly before the folder (conjunct 3), so the
parent's mapping decision is finalized first; and the destination
parent of a processed folder resolves to the parent's mapped id when
one is present and to `dest_folder_id` otherwise (conjuncts 4 and 5). -/
theorem C3_depth_order (dest_folder_id : List Char) (files : List FileInfo)
    (o : MirrorOracle) (st : MirrorState) :
    (create_folder_structure dest_folder_id files o st =
      (sortByDepth (foldersOf files)).foldl
        (processFolder dest_folder_id (foldersOf files) o) st) ∧
    (sortByDepth (foldersOf files)).Pairwise
      (fun a b => pathDepth a.path ≤ pathDepth b.path) ∧
    (∀ i j : Fin (sortByDepth (foldersOf files)).length,
      parentPath ((sortByDepth (foldersOf files)).get i).path ≠ [] →
      ((sortByDepth (foldersOf files)).get j).path
          = parentPath ((sortByDepth (foldersOf files)).get i).path →
      (j : Nat) < (i : Nat)) ∧
    (∀ (mapping : List (List Char × List Char)) (path : List Char)
        (pf : FileInfo) (d : List Char),
      parentPath path ≠ [] →
      (foldersOf files).find? (fun g => g.path == parentPath path) = some pf →
      List.lookup pf.id mapping = some d →
      resolveDestParent dest_folder_id (foldersOf files) mapping path = d) ∧
    (∀ (mapping : List (List Char × List Char)) (path : List Char),
      (parentPath path = [] ∨
        (∀ pf, (foldersOf files).find? (fun g => g.path == parentPath path) = some pf →
          List.lookup pf.id mapping = none)) →
      resolveDestParent dest_folder_id (foldersOf files) mapping path
        = dest_folder_id) := by
  refine ⟨rfl, sortByDepth_pairwise (foldersOf files), ?_, ?_, ?_⟩
  · intro i j h1 h2
    have hd : pathDepth ((sortByDepth (foldersOf files)).get j).path
        < pathDepth ((sortByDepth (foldersOf files)).get i).path := by
      rw [h2]
      exact pathDepth_parentPath_lt _ h1
    by_contra hji
    push_neg at hji
    rcases Nat.lt_or_ge (i : Nat) (j : Nat) with hij | hij
    · have := (List.pairwise_iff_get.mp (sortByDepth_pairwise (foldersOf files))) i j hij
      omega
    · have hij' : (i : Nat) = (j : Nat) := by omega
      have : i = j := Fin.ext hij'
      subst this
      omega
  · intro mapping path pf d h1 hfind hlk
    unfold resolveDestParent
    rw [if_neg h1, hfind]
    simp only [hlk]
  · intro mapping path hdisj
    unfold resolveDestParent
    rcases hdisj with hemp | hall
    · rw [if_pos hemp]
    · by_cases hemp : parentPath path = []
      · rw [if_pos hemp]
      · rw [if_neg hemp]
        cases hfind : (foldersOf files).find? (fun g => g.path == parentPath path) with
        | none => rfl
        | some pf => simp [hall pf hfind]

def c3A : FileInfo :=
  { id := "a".toList, name := "A".toList, mime_type := folderMime,
    size := 0, parents := [], path := "A".toList }

def c3B : FileInfo :=
  { id := "b".toList, name := "B".toList, mime_type := folderMime,
    size := 0, parents := [], path := "A/B".toList }

def c3Files : List FileInfo := [c3A, c3B]

def c3Oracle : MirrorOracle := ⟨fun _ => false, fun _ => false⟩

def c3St : MirrorState := { folder_mapping := [], dest := [], nextId := 0 }

theorem C3_witness :
    parentPath ((sortByDepth (foldersOf c3Files)).get ⟨1, by decide⟩).path ≠ [] ∧
    ((sortByDepth (foldersOf c3Files)).get ⟨0, by decide⟩).path
        = parentPath ((sortByDepth (foldersOf c3Files)).get ⟨1, by decide⟩).path ∧
    ((0 : Nat) < (1 : Nat)) :=
  ⟨by decide, by decide,
    (C3_depth_order ("D".toList) c3Files c3Oracle c3St).2.2.1
      ⟨1, by decide⟩ ⟨0, by decide⟩ (by decide) (by decide)⟩

/-! ### Claim C9: scanner path invariant -/

theorem lookup_mem {α β : Type} [BEq α] [LawfulBEq α] {k : α} {v : β} :
    ∀ {ps : List (α × β)}, List.lookup k ps = some v → (k, v) ∈ ps := by
  intro ps
  induction ps with
  | nil => intro h; simp [List.lookup] at h
  | cons p ps ih =>
    intro h
    cases p with
    | mk k' v' =>
      by_cases hk : (k == k') = true
      · rw [List.lookup, hk] at h
        have hkk : k = k' := eq_of_beq hk
        have hvv : v' = v := by simpa using h
        rw [hkk, hvv]
        exact List.mem_cons_self _ _
      · rw [List.lookup, Bool.of_not_eq_true hk] at h
        exact List.mem_cons_of_mem _ (ih h)

theorem lookup_isSome_cons {α β : Type} [BEq α] [LawfulBEq α] (k : α)
    (pr : α × β) (ps : List (α × β)) (h : (List.lookup k ps).isSome) :
    (List.lookup k (pr :: ps)).isSome := by
  cases pr with
  | mk k' v' =>
    by_cases hk : (k == k') = true
    · rw [List.lookup, hk]
      rfl
    · rw [List.lookup, Bool.of_not_eq_true hk]
      exact h

/-- The C9 invariant: every node recorded in `structure` got its path
from a parent id among its `parents`, that parent has a recorded path
`pp`, was already dequeued and processed, and the node's path is
`pp + '/' + name` (just `name` when `pp` is empty). -/
abbrev PathInv (paths : List (List Char × List Char)) (proc : List (List Char))
    (st : List (List Char × FileInfo)) : Prop :=
  ∀ (idv : List Char) (fi : FileInfo), (idv, fi) ∈ st →
    ∃ pid pp, pid ∈ fi.parents ∧ (pid, pp) ∈ paths ∧ pid ∈ proc ∧
      fi.path = mkChildPath pp fi.name

theorem scanItemStep_fold_inv (current : List Char) (current_path : List Char)
    (proc : List (List Char)) :
    ∀ (items : List RawItem)
      (q : List (List Char)) (p : List (List Char × List Char))
      (st : List (List Char × FileInfo)),
      (∀ it ∈ items, current ∈ it.parents) →
      (current, current_path) ∈ p →
      current ∈ proc →
      (∀ x ∈ q, (List.lookup x p).isSome) →
      PathInv p proc st →
      ((current, current_path) ∈ (items.foldl (scanItemStep current_path) (q, p, st)).2.1 ∧
       (∀ x ∈ (items.foldl (scanItemStep current_path) (q, p, st)).1,
          (List.lookup x (items.foldl (scanItemStep current_path) (q, p, st)).2.1).isSome) ∧
       PathInv (items.foldl (scanItemStep current_path) (q, p, st)).2.1 proc
         (items.foldl (scanItemStep current_path) (q, p, st)).2.2) := by
  intro items
  induction items with
  | nil => intro q p st _ hcur hproc hque hinv; exact ⟨hcur, hque, hinv⟩
  | cons it its ih =>
    intro q p st hpar hcur hproc hque hinv
    simp only [List.foldl_cons]
    by_cases hf : (it.mimeType == folderMime) = true
    · have hstep : scanItemStep current_path (q, p, st) it =
        (q ++ [it.id], (it.id, mkChildPath current_path it.name) :: p,
          (it.id, mkScanFileInfo it (mkChildPath current_path it.name)) :: st) := by
        simp [scanItemStep, hf]
      rw [hstep]
      apply ih
      · intro x hx
        exact hpar x (List.mem_cons_of_mem it hx)
      · exact List.mem_cons_of_mem _ hcur
      · exact hproc
      · intro x hx
        rcases List.mem_append.mp hx with hx | hx
        · exact lookup_isSome_cons _ _ _ (hque x hx)
        · have hxid : x = it.id := by simpa using hx
          subst hxid
          rw [List.lookup]
          simp
      · intro idv fi hm
        rcases List.mem_cons.mp hm with hm | hm
        · have hid : idv = it.id ∧
              fi = mkScanFileInfo it (mkChildPath current_path it.name) := by
            simpa [Prod.ext_iff] using hm
          refine ⟨current, current_path, ?_, List.mem_cons_of_mem _ hcur, hproc, ?_⟩
          · rw [hid.2]
            exact hpar it (List.mem_cons_self it its)
          · rw [hid.2]
            rfl
        · obtain ⟨pid, pp, h1, h2, h3, h4⟩ := hinv idv fi hm
          exact ⟨pid, pp, h1, List.mem_cons_of_mem _ h2, h3, h4⟩
    · have hstep : scanItemStep current_path (q, p, st) it =
        (q, p,
          (it.id, mkScanFileInfo it (mkChildPath current_path it.name)) :: st) := by
        simp [scanItemStep, hf]
      rw [hstep]
      apply ih
      · intro x hx
        exact hpar x (List.mem_cons_of_mem it hx)
      · exact hcur
      · exact hproc
      · exact hque
      · intro idv fi hm
        rcases List.mem_cons.mp hm with hm | hm
        · have hid : idv = it.id ∧
              fi = mkScanFileInfo it (mkChildPath current_path it.name) := by
            simpa [Prod.ext_iff] using hm
          refine ⟨current, current_path, ?_, hcur, hproc, ?_⟩
          · rw [hid.2]
            exact hpar it (List.mem_cons_self it its)
          · rw [hid.2]
            rfl
        · exact hinv idv fi hm

theorem scanLoop_inv (all_files : List RawItem) :
    ∀ (fuel : Nat) (s : ScanState),
      (∀ x ∈ s.queue, (List.lookup x s.folder_paths).isSome) →
      PathInv s.folder_paths s.processed s.structure_ →
      PathInv (scanLoop all_files fuel s).folder_paths
        (scanLoop all_files fuel s).processed
        (scanLoop all_files fuel s).structure_ := by
  intro fuel
  induction fuel with
  | zero => intro s _ hinv; exact hinv
  | succ n ih =>
    intro s hq hinv
    cases hqe : s.queue with
    | nil =>
      simp only [scanLoop, hqe]
      exact hinv
    | cons current rest =>
      have hcur_some : (List.lookup current s.folder_paths).isSome :=
        hq current (hqe ▸ List.mem_cons_self _ _)
      obtain ⟨cp, hcp⟩ := Option.isSome_iff_exists.mp hcur_some
      have hmemp : (current, cp) ∈ s.folder_paths := lookup_mem hcp
      have hcurproc : current ∈ s.processed ++ [current] := by simp
      have hinv' : PathInv s.folder_paths (s.processed ++ [current]) s.structure_ := by
        intro idv fi hm
        obtain ⟨pid, pp, h1, h2, h3, h4⟩ := hinv idv fi hm
        exact ⟨pid, pp, h1, h2, List.mem_append_left _ h3, h4⟩
      have hpar : ∀ it ∈ all_files.filter (fun it => it.parents.contains current),
          current ∈ it.parents := by
        intro it hit
        have hc := (List.mem_filter.mp hit).2
        simpa using hc
      have hrest : ∀ x ∈ rest, (List.lookup x s.folder_paths).isSome := by
        intro x hx
        exact hq x (hqe ▸ List.mem_cons_of_mem _ hx)
      have hfold := scanItemStep_fold_inv current cp (s.processed ++ [current])
        (all_files.filter (fun it => it.parents.contains current))
        rest s.folder_paths s.structure_ hpar hmemp hcurproc hrest hinv'
      simp only [scanLoop, hqe, hcp, Option.getD_some]
      exact ih _ hfold.2.1 hfold.2.2

/-- C9: in every state reachable by the scanner work loop (any fuel),
every node recorded in `structure` has a parent id among its
`parents` such that that parent id carries a recorded path `pp`, the
parent was dequeued and processed before the node was added, and the
node's path equals `pp + '/' + name`; with an empty recorded parent
path (the root scanned with empty base path) the node's path is exactly
its name. -/
theorem C9_scanner_paths (folder_id base_path : List Char)
    (all_files : List RawItem) (fuel : Nat) (idv : List Char) (fi : FileInfo)
    (hmem : (idv, fi) ∈
      (get_folder_structure folder_id base_path all_files fuel).structure_) :
    (∃ pid pp, pid ∈ fi.parents ∧
      (pid, pp) ∈ (get_folder_structure folder_id base_path all_files fuel).folder_paths ∧
      pid ∈ (get_folder_structure folder_id base_path all_files fuel).processed ∧
      fi.path = mkChildPath pp fi.name) ∧
    (∀ nm : List Char, mkChildPath [] nm = nm) := by
  constructor
  · have hstart : ∀ x ∈ [folder_id],
        (List.lookup x ([(folder_id, base_path)] :
          List (List Char × List Char))).isSome := by
      intro x hx
      have hx' : x = folder_id := by simpa using hx
      subst hx'
      rw [List.lookup]
      simp
    have hinv0 : PathInv [(folder_id, base_path)] ([] : List (List Char))
        ([] : List (List Char × FileInfo)) := by
      intro idv fi hm
      exact absurd hm (List.not_mem_nil _)
    exact scanLoop_inv all_files fuel
      { queue := [folder_id], folder_paths := [(folder_id, base_path)],
        structure_ := [], processed := [] } hstart hinv0 idv fi hmem
  · intro nm
    rfl

def c9ItemB : RawItem :=
  { id := "b".toList, name := "B".toList, mimeType := folderMime,
    size := 0, parents := ["r".toList] }

def c9ItemF : RawItem :=
  { id := "f".toList, name := "f.txt".toList, mimeType := "text/plain".toList,
    size := 5, parents := ["b".toList] }

def c9All : List RawItem := [c9ItemB, c9ItemF]

def c9FI : FileInfo :=
  { id := "f".toList, name := "f.txt".toList, mime_type := "text/plain".toList,
    size := 5, parents := ["b".toList], path := "B/f.txt".toList }

theorem C9_witness :
    (("f".toList, c9FI) ∈
      (get_folder_structure ("r".toList) [] c9All 3).structure_) ∧
    ((∃ pid pp, pid ∈ c9FI.parents ∧
        (pid, pp) ∈ (get_folder_structure ("r".toList) [] c9All 3).folder_paths ∧
        pid ∈ (get_folder_structure ("r".toList) [] c9All 3).processed ∧
        c9FI.path = mkChildPath pp c9FI.name) ∧
      (∀ nm : List Char, mkChildPath [] nm = nm)) :=
  ⟨by decide,
    C9_scanner_paths ("r".toList) [] c9All 3 ("f".toList) c9FI (by decide)⟩

/-! ### Claim C5: per-transfer retry budget -/

theorem regularGo_attempts_le (maxR : Nat) (att : Nat → Option PyErr)
    (jit : Nat → ℚ) :
    ∀ fuel, (regularGo maxR att jit fuel).attempts ≤ fuel := by
  intro fuel
  induction fuel with
  | zero => simp [regularGo]
  | succ n ih =>
    simp only [regularGo]
    cases ha : att (maxR - (n + 1)) with
    | none => simp
    | some e =>
      dsimp only
      by_cases hc : is_network_error e ∧ maxR - (n + 1) < maxR - 1
      · rw [if_pos hc]
        cases hh : handle_network_error e (maxR - (n + 1)) (jit (maxR - (n + 1))) with
        | none => simp
        | some w =>
          simp only []
          omega
      · rw [if_neg hc]
        simp

theorem gdocGo_attempts_le (maxR : Nat) (mime : List Char)
    (att : Nat → Option PyErr) (jit : Nat → ℚ) :
    ∀ fuel, (gdocGo maxR mime att jit fuel).attempts ≤ fuel := by
  intro fuel
  induction fuel with
  | zero => simp [gdocGo]
  | succ n ih =>
    simp only [gdocGo]
    by_cases hm : (export_format_keys.contains mime) = false
    · rw [if_pos hm]
      simp
    · rw [if_neg hm]
      cases ha : att (maxR - (n + 1)) with
      | none => simp
      | some e =>
        dsimp only
        by_cases hc : is_network_error e ∧ maxR - (n + 1) < maxR - 1
        · rw [if_pos hc]
          cases hh : handle_network_error e (maxR - (n + 1)) (jit (maxR - (n + 1))) with
          | none => simp
          | some w =>
            simp only []
            omega
        · rw [if_neg hc]
          simp

theorem regularGo_allfail_false (maxR : Nat) (att : Nat → Option PyErr)
    (jit : Nat → ℚ) (hall : ∀ k, k < maxR → att k ≠ none) :
    ∀ fuel, fuel ≤ maxR → (regularGo maxR att jit fuel).success = false := by
  intro fuel
  induction fuel with
  | zero => intro _; simp [regularGo]
  | succ n ih =>
    intro hle
    have hlt : maxR - (n + 1) < maxR := by omega
    simp only [regularGo]
    cases ha : att (maxR - (n + 1)) with
    | none => exact absurd ha (hall _ hlt)
    | some e =>
      dsimp only
      by_cases hc : is_network_error e ∧ maxR - (n + 1) < maxR - 1
      · rw [if_pos hc]
        cases hh : handle_network_error e (maxR - (n + 1)) (jit (maxR - (n + 1))) with
        | none => simp
        | some w =>
          simp only []
          exact ih (by omega)
      · rw [if_neg hc]

theorem gdocGo_allfail_false (maxR : Nat) (mime : List Char)
    (att : Nat → Option PyErr) (jit : Nat → ℚ)
    (hall : ∀ k, k < maxR → att k ≠ none) :
    ∀ fuel, fuel ≤ maxR → (gdocGo maxR mime att jit fuel).success = false := by
  intro fuel
  induction fuel with
  | zero => intro _; simp [gdocGo]
  | succ n ih =>
    intro hle
    have hlt : maxR - (n + 1) < maxR := by omega
    simp only [gdocGo]
    by_cases hm : (export_format_keys.contains mime) = false
    · rw [if_pos hm]
    · rw [if_neg hm]
      cases ha : att (maxR - (n + 1)) with
      | none => exact absurd ha (hall _ hlt)
      | some e =>
        dsimp only
        by_cases hc : is_network_error e ∧ maxR - (n + 1) < maxR - 1
        · rw [if_pos hc]
          cases hh : handle_network_error e (maxR - (n + 1)) (jit (maxR - (n + 1))) with
          | none => simp
          | some w =>
            simp only []
            exact ih (by omega)
        · rw [if_neg hc]

theorem foldl_summaryStep_counts (g : FileInfo → Bool) :
    ∀ (l : List FileInfo) (s : Summary),
      ((l.foldl (summaryStep g) s).transferred_files
        = s.transferred_files + l.countP g) ∧
      ((l.foldl (summaryStep g) s).total_files = s.total_files) := by
  intro l
  induction l with
  | nil => intro s; simp
  | cons f fs ih =>
    intro s
    simp only [List.foldl_cons, List.countP_cons]
    obtain ⟨h1, h2⟩ := ih (summaryStep g s f)
    by_cases hg : g f = true
    · refine ⟨?_, ?_⟩
      · rw [h1]
        simp only [summaryStep, hg, if_true]
        omega
      · rw [h2]
        simp [summaryStep, hg]
    · refine ⟨?_, ?_⟩
      · rw [h1]
        simp only [summaryStep, hg, Bool.false_eq_true, if_false]
        omega
      · rw [h2]
        simp [summaryStep, hg]

/-- C5: a single logical transfer (one `transfer_file_safe` task; each
attempt covers the download plus the upload of one loop iteration)
performs at most `max_retries` attempts; when every in-budget attempt
fails it resolves `False` — the embedding is a total function, matching
the source where `_transfer_regular_file` and `_transfer_google_doc`
catch every exception and return a Boolean — and the job-level fold
still counts every listed file: the summary's `transferred_files` is
exactly the number of files whose task succeeded and `total_files` the
full length of the processed file list, whatever the failures. -/
theorem C5_retry_budget (cfg : TransferConfig) (file_info : FileInfo)
    (source_folders : List FileInfo) (mapping : List (List Char × List Char))
    (att : Nat → Option PyErr) (jit : Nat → ℚ) :
    ((transfer_file_safe cfg file_info source_folders mapping att jit).1.attempts
      ≤ cfg.max_retries) ∧
    ((∀ k, k < cfg.max_retries → att k ≠ none) →
      (transfer_file_safe cfg file_info source_folders mapping att jit).1.success
        = false) ∧
    (∀ (files : List FileInfo) (attF : FileInfo → Nat → Option PyErr),
      (transfer_all_files cfg files mapping attF jit).transferred_files =
        List.countP (fun f =>
          (transfer_file_safe cfg f (foldersOf files) mapping (attF f) jit).1.success)
          (fileListOf cfg files) ∧
      (transfer_all_files cfg files mapping attF jit).total_files =
        (fileListOf cfg files).length) := by
  refine ⟨?_, ?_, ?_⟩
  · by_cases h0 : cfg.max_retries = 0
    · simp [transfer_file_safe, h0]
    · by_cases hg : isGoogleAppsMime file_info.mime_type = true
      · simp only [transfer_file_safe, h0, if_false, hg, if_true]
        exact gdocGo_attempts_le cfg.max_retries file_info.mime_type att jit
          cfg.max_retries
      · simp only [transfer_file_safe, h0, if_false, hg, Bool.false_eq_true]
        exact regularGo_attempts_le cfg.max_retries att jit cfg.max_retries
  · intro hall
    by_cases h0 : cfg.max_retries = 0
    · simp [transfer_file_safe, h0]
    · by_cases hg : isGoogleAppsMime file_info.mime_type = true
      · simp only [transfer_file_safe, h0, if_false, hg, if_true]
        exact gdocGo_allfail_false cfg.max_retries file_info.mime_type att jit
          hall cfg.max_retries (le_refl _)
      · simp only [transfer_file_safe, h0, if_false, hg, Bool.false_eq_true]
        exact regularGo_allfail_false cfg.max_retries att jit hall
          cfg.max_retries (le_refl _)
  · intro files attF
    have h := foldl_summaryStep_counts (fun f =>
      (transfer_file_safe cfg f (foldersOf files) mapping (attF f) jit).1.success)
      (fileListOf cfg files)
      { total_files := (fileListOf cfg files).length, transferred_files := 0,
        transferred_bytes := 0 }
    exact ⟨by simpa using h.1, by simpa using h.2⟩

def c5Err : PyErr :=
  { isHttp := false, status := 0, text := "connection reset by peer".toList }

def c5Cfg : TransferConfig :=
  { source_folder_id := "s".toList, dest_folder_id := "D".toList }

def c5File : FileInfo :=
  { id := "f".toList, name := "f.txt".toList, mime_type := "text/plain".toList,
    size := 1, parents := [], path := "f.txt".toList }

def c5Att : Nat → Option PyErr := fun _ => some c5Err

theorem C5_witness :
    (∀ k, k < c5Cfg.max_retries → c5Att k ≠ none) ∧
      (transfer_file_safe c5Cfg c5File [] [] c5Att (fun _ => 1 / 2)).1.attempts
        ≤ c5Cfg.max_retries ∧
      (transfer_file_safe c5Cfg c5File [] [] c5Att (fun _ => 1 / 2)).1.success
        = false :=
  ⟨fun k _ => by simp [c5Att],
    (C5_retry_budget c5Cfg c5File [] [] c5Att (fun _ => 1 / 2)).1,
    (C5_retry_budget c5Cfg c5File [] [] c5Att (fun _ => 1 / 2)).2.1
      (fun k _ => by simp [c5Att])⟩

/-! ### Claim C6: HTTP-status classification during a file transfer -/

def c6Err : PyErr :=
  { isHttp := true, status := 503,
    text := "httperror 503 when requesting a url returned backend error".toList }

def c6Cfg : TransferConfig :=
  { source_folder_id := "s".toList, dest_folder_id := "D".toList }

def c6File : FileInfo :=
  { id := "f".toList, name := "f.txt".toList, mime_type := "text/plain".toList,
    size := 1, parents := [], path := "f.txt".toList }

def c6Att : Nat → Option PyErr := fun _ => some c6Err

/-- C6, evaluated at the failing input: a 503 `HttpError` raised during
the download leg of the first attempt, with `max_retries = 3`.  Its
status is in the retriable set `{403, 429, 500, 502, 503, 504}` and two
attempts remain, yet the task resolves `False` after exactly one
attempt with no backoff sleep: the blanket `except Exception` handlers
inside `_transfer_regular_file` catch the `HttpError` (an `Exception`
subclass), consult only `is_network_error` — which is false for the
HttpError string — and return `False`, so the status-based retry branch
of `transfer_file_safe` (lines 502-511) never runs for transfer
errors. -/
theorem C6_http_status_not_retried :
    c6Err.isHttp = true ∧
    c6Err.status ∈ retriable_statuses ∧
    is_network_error c6Err = false ∧
    1 < c6Cfg.max_retries ∧
    (transfer_file_safe c6Cfg c6File [] [] c6Att (fun _ => 1 / 2)).1 =
      { success := false, attempts := 1, sleeps := [] } := by
  decide

/-! ### Claim C8: RateLimited twice then success -/

def c8Err : PyErr :=
  { isHttp := true, status := 429,
    text := "httperror 429 when requesting a url returned rate limit exceeded".toList }

def c8Cfg : TransferConfig :=
  { source_folder_id := "s".toList, dest_folder_id := "D".toList }

def c8File : FileInfo :=
  { id := "f8".toList, name := "g.txt".toList, mime_type := "text/plain".toList,
    size := 1, parents := [], path := "g.txt".toList }

/-- Per-attempt outcomes of spec Scenario B: attempts 1 and 2 fail with
a RateLimited (429) status, attempt 3 would succeed. -/
def c8Att : Nat → Option PyErr := fun k => if k < 2 then some c8Err else none

/-- C8, evaluated at the failing input: under the Scenario-B oracle the
task does not resolve Success on the third attempt with two increasing
backoff sleeps — it resolves `False` after a single attempt with no
sleep at all, because the 429 `HttpError` is swallowed by the blanket
handler of `_transfer_regular_file` and is not a network-signature
error, so the status-based retry of `transfer_file_safe`
(lines 502-511) is never reached. -/
theorem C8_scenario_b_fails_immediately :
    c8Err.status ∈ retriable_statuses ∧
    c8Att 0 = some c8Err ∧ c8Att 1 = some c8Err ∧ c8Att 2 = none ∧
    (transfer_file_safe c8Cfg c8File [] [] c8Att (fun _ => 1 / 2)).1 =
      { success := false, attempts := 1, sleeps := [] } := by
  decide

/-! ### Claim C1: fallback upload parent for unmapped folders -/

def c1Cfg : TransferConfig :=
  { source_folder_id := "s".toList, dest_folder_id := "D".toList }

def c1A : FileInfo :=
  { id := "a".toList, name := "A".toList, mime_type := folderMime,
    size := 0, parents := [], path := "A".toList }

def c1B : FileInfo :=
  { id := "b".toList, name := "B".toList, mime_type := folderMime,
    size := 0, parents := ["a".toList], path := "A/B".toList }

def c1File : FileInfo :=
  { id := "f".toList, name := "f.txt".toList, mime_type := "text/plain".toList,
    size := 1, parents := ["b".toList], path := "A/B/f.txt".toList }

def c1Files : List FileInfo := [c1A, c1B, c1File]

/-- Folder A's creation fails with a (permanent) `HttpError`; all other
calls succeed. -/
def c1Oracle : MirrorOracle :=
  { checkFault := fun _ => false, createFault := fun fo => fo.id == "a".toList }

def c1St : MirrorState := { folder_mapping := [], dest := [], nextId := 0 }

def c1Mirror : MirrorState :=
  create_folder_structure ("D".toList) c1Files c1Oracle c1St

/-- C1 counterexample: folder `A`'s creation failed, so `A` has no
FolderMapping entry and `f.txt`'s path `A/B/f.txt` descends through the
unmapped folder `A`; still the resolved upload parent is folder `B`'s
created destination id (B was created under the fallback root and
mapped), not `dest_folder_id`.  The claim's universal statement over
every unmapped folder on the path is therefore false: the fallback
triggers only when the immediate parent-by-path is unmapped. -/
theorem C1_counterexample :
    List.lookup ("a".toList) c1Mirror.folder_mapping = none ∧
    c1File.path = c1A.path ++ '/' :: ("B/f.txt".toList) ∧
    resolveDestParent ("D".toList) (foldersOf c1Files) c1Mirror.folder_mapping
        c1File.path ≠ ("D".toList) := by
  decide

/-- C1 (amended): for every file node whose immediate parent-by-path
folder is absent from the scanned folder pool or has no FolderMapping
entry (including when that folder's creation failed), the transfer
resolves `dest_folder_id` as the upload parent — the file is neither
dropped nor failed for that reason — and the job summary counts the
file as succeeded exactly when its task succeeds. -/
theorem C1_fallback_parent (cfg : TransferConfig) (pool : List FileInfo)
    (mapping : List (List Char × List Char)) (file_info : FileInfo)
    (att : Nat → Option PyErr) (jit : Nat → ℚ)
    (h1 : parentPath file_info.path ≠ [])
    (h2 : match pool.find? (fun g => g.path == parentPath file_info.path) with
          | none => True
          | some pf => List.lookup pf.id mapping = none) :
    resolveDestParent cfg.dest_folder_id pool mapping file_info.path
      = cfg.dest_folder_id ∧
    (cfg.max_retries ≠ 0 →
      (transfer_file_safe cfg file_info pool mapping att jit).2
        = some cfg.dest_folder_id) ∧
    (∀ (files : List FileInfo) (attF : FileInfo → Nat → Option PyErr),
      (transfer_all_files cfg files mapping attF jit).transferred_files =
        List.countP (fun f =>
          (transfer_file_safe cfg f (foldersOf files) mapping (attF f) jit).1.success)
          (fileListOf cfg files)) := by
  have hres : resolveDestParent cfg.dest_folder_id pool mapping file_info.path
      = cfg.dest_folder_id := by
    unfold resolveDestParent
    rw [if_neg h1]
    cases hf : pool.find? (fun g => g.path == parentPath file_info.path) with
    | none => rfl
    | some pf =>
      rw [hf] at h2
      simp only [h2]
  refine ⟨hres, ?_, ?_⟩
  · intro hmr
    by_cases hg : isGoogleAppsMime file_info.mime_type = true
    · simp only [transfer_file_safe, hmr, if_false, hg, if_true, hres]
    · simp only [transfer_file_safe, hmr, if_false, hg, Bool.false_eq_true, hres]
  · intro files attF
    have h := foldl_summaryStep_counts (fun f =>
      (transfer_file_safe cfg f (foldersOf files) mapping (attF f) jit).1.success)
      (fileListOf cfg files)
      { total_files := (fileListOf cfg files).length, transferred_files := 0,
        transferred_bytes := 0 }
    simpa using h.1

theorem c1_witness_find :
    (foldersOf c1Files).find? (fun g => g.path == parentPath c1File.path)
      = some c1B := by
  decide

theorem C1_witness :
    (parentPath c1File.path ≠ []) ∧
    (match (foldersOf c1Files).find? (fun g => g.path == parentPath c1File.path) with
     | none => True
     | some pf => List.lookup pf.id ([] : List (List Char × List Char)) = none) ∧
    resolveDestParent c1Cfg.dest_folder_id (foldersOf c1Files) [] c1File.path
      = c1Cfg.dest_folder_id :=
  ⟨by decide, by rw [c1_witness_find]; rfl,
    (C1_fallback_parent c1Cfg (foldersOf c1Files) [] c1File (fun _ => none)
      (fun _ => 1 / 2) (by decide) (by rw [c1_witness_find]; rfl)).1⟩

/-! ### Claim C10: swallowed existence-check errors -/

def c10Oracle : MirrorOracle :=
  { checkFault := fun _ => true, createFault := fun _ => false }

def c10A2 : FileInfo :=
  { id := "a2".toList, name := "A".toList, mime_type := folderMime,
    size := 0, parents := [], path := "A".toList }

/-- A destination that already holds a folder named `A` under `D`. -/
def c10St : MirrorState :=
  { folder_mapping := [],
    dest := [{ id := "x0".toList, name := "A".toList, parent := "D".toList }],
    nextId := 0 }

/-- C10: whenever the destination existence query raises an `HttpError`
the check returns `None` for every destination state and query (the
error is swallowed, lines 455-457), and the mirror then behaves as if
no matching folder existed: running it over a source folder named `A`
against a destination that already holds `(A, D)`, with the check
faulting, creates a second destination folder with the same
`(name, parentId)` pair. -/
theorem C10_check_error_swallowed (dest : List DestFolder) (nm pid : List Char) :
    check_folder_exists dest true nm pid = none ∧
    countPair (create_folder_structure ("D".toList) [c10A2] c10Oracle c10St).dest
        ("A".toList) ("D".toList) = 2 := by
  constructor
  · rfl
  · decide
